import Mathlib

/-!
Verification development for the Tellow_RAG repository.

The Python sources (`config.py`, `rag_system.py`, `app.py`, `main.py`) are
shallowly embedded below: configuration constants become Lean constants,
the `RAGSystem` session state becomes a structure, and the stateful
`query` method becomes a pure function that threads the state and takes
the external collaborators (table reopening, vector search, the LLM) as
explicit parameters.  Components whose implementation lives in third-party
libraries (the recursive text splitter and the LanceDB table) are modelled
from the specification, as flagged in their doc comments.
-/

namespace Tellow

/-! ## Configuration (src/config.py) -/

namespace Config

/-- Size of each text chunk in characters (config.py line 21). -/
def CHUNK_SIZE : Nat := 1000

/-- Overlap between consecutive chunks (config.py line 23). -/
def CHUNK_OVERLAP : Nat := 200

/-- Embedding model identifier (config.py line 29). -/
def EMBEDDING_MODEL : String := "text-embedding-3-small"

/-- Generation model identifier (config.py line 31). -/
def LLM_MODEL : String := "gpt-4o"

/-- Vector database storage location (config.py line 36). -/
def LANCEDB_URI : String := "data/lancedb"

/-- Vector database table name (config.py line 37). -/
def TABLE_NAME : String := "docling_docs"

/-- Number of chunks retrieved per query (config.py line 43). -/
def SEARCH_K : Nat := 4

end Config

/-! ## Data model -/

/-- A document or chunk: page content plus its source identifier, the
shape of the langchain Document objects flowing through rag_system.py. -/
structure Document where
  page_content : String
  source : String
deriving DecidableEq

/-- An opened vector-store handle (the LanceDB wrapper object held in
RAGSystem.vector_store once it is not None). -/
structure Handle where
  table_name : String
deriving DecidableEq

/-- The session state of RAGSystem.__init__ (rag_system.py lines 51-54):
embedding provider, LLM handle, optional vector-store handle, and the
database connection. -/
structure RAGSystem where
  embeddings : String
  llm : String
  vector_store : Option Handle
  _db : String
deriving DecidableEq

/-- RAGSystem.__init__ (rag_system.py lines 44-54). -/
def RAGSystem.init : RAGSystem :=
  { embeddings := Config.EMBEDDING_MODEL
  , llm := Config.LLM_MODEL
  , vector_store := none
  , _db := Config.LANCEDB_URI }

/-! ## Chunker

Modelled from the spec: the splitter used at rag_system.py lines 67-71 is
the third-party RecursiveCharacterTextSplitter, whose implementation is
not part of this repository.  Spec section 4.2 describes it: recursively
split on a prioritized list of separators, attempting the coarsest
separator first and recursing with the next finer separator on any
segment that still exceeds `chunk_size`; then merge adjacent segments
greedily up to `chunk_size`, inserting an overlap of up to
`chunk_overlap` characters from the end of the previous chunk at the
start of the next; validate `chunk_overlap < chunk_size` and fail fast
with `ConfigError` otherwise.  Text is modelled as its list of
characters. -/

/-- Error raised when chunk parameters are invalid (spec section 4.2:
`ConfigError`). -/
inductive ChunkError where
  | configError
deriving DecidableEq

/-- Does `p` occur at the head of `text`? -/
def leadsWith : List Char → List Char → Bool
  | [], _ => true
  | _ :: _, [] => false
  | p :: ps, c :: cs => (p == c) && leadsWith ps cs

/-- Split `text` at every occurrence of the separator `sep`, dropping the
separators.  Fuel-driven so the recursion is structural. -/
def splitOnGo (sep : List Char) : Nat → List Char → List Char → List (List Char)
  | _, [], acc => [acc.reverse]
  | 0, text, acc => [acc.reverse ++ text]
  | fuel + 1, c :: cs, acc =>
      if leadsWith sep (c :: cs) && !sep.isEmpty then
        acc.reverse :: splitOnGo sep fuel ((c :: cs).drop sep.length) []
      else
        splitOnGo sep fuel cs (c :: acc)

/-- Split a character list on a separator sequence. -/
def splitOnChars (sep text : List Char) : List (List Char) :=
  splitOnGo sep text.length text []

/-- The finest splitting level of spec section 4.2: individual characters. -/
def charPieces (text : List Char) : List (List Char) :=
  text.map (fun c => [c])

/-- Spec section 4.2 separator priority: paragraph breaks, then line
breaks, then word breaks (with single characters as the base case of
`splitRec`). -/
def separators : List (List Char) :=
  [['\n', '\n'], ['\n'], [' ']]

/-- Recursive splitting: try the coarsest separator; any piece still
longer than `cs` recurses with the finer separators; with no separators
left, split into single characters. -/
def splitRec (cs : Nat) : List (List Char) → List Char → List (List Char)
  | [], text => charPieces text
  | sep :: rest, text =>
      (splitOnChars sep text).flatMap
        (fun p => if p.length ≤ cs then [p] else splitRec cs rest p)

/-- The last `n` characters of `s` (the overlap carried into the next
chunk). -/
def takeRightChars (s : List Char) (n : Nat) : List Char :=
  s.drop (s.length - n)

/-- Greedy merge of segments into chunks of size at most `cs`, carrying
an overlap of up to `co` characters (trimmed so the new chunk still fits)
from the end of each emitted chunk into the next. -/
def mergeLoop (cs co : Nat) : List (List Char) → List Char → List (List Char)
  | [], cur => if cur.isEmpty then [] else [cur]
  | seg :: segs, cur =>
      if cur.length + seg.length ≤ cs then
        mergeLoop cs co segs (cur ++ seg)
      else
        cur :: mergeLoop cs co segs (takeRightChars cur (min co (cs - seg.length)) ++ seg)

/-- The chunker contract of spec section 4.2: validate the parameters,
then split and merge.  Returns the chunk contents in order. -/
def split_text (cs co : Nat) (text : String) : Except ChunkError (List String) :=
  if co < cs then
    Except.ok ((mergeLoop cs co (splitRec cs separators text.data) []).map
      (fun l => String.mk l))
  else
    Except.error ChunkError.configError

/-- The split step of RAGSystem.load_documents (rag_system.py lines
67-71): the splitter is instantiated with Config.CHUNK_SIZE and
Config.CHUNK_OVERLAP. -/
def load_documents_split (text : String) : Except ChunkError (List String) :=
  split_text Config.CHUNK_SIZE Config.CHUNK_OVERLAP text

/-! ## Vector index

Modelled from the spec: the table behind LanceDB.from_documents
(rag_system.py lines 82-87) lives in the LanceDB library, not in this
repository.  Spec sections 3 and 4.4: an index entry is a chunk plus its
vector; `upsert` appends entries, creating the table on first call; a
table is append-only across ingestion calls. -/

/-- An entry of the vector index: chunk plus embedding vector (spec
section 3). -/
structure IndexEntry where
  chunk : Document
  vector : List ℚ
deriving DecidableEq

/-- Spec section 4.4 `upsert`, the table write performed by
RAGSystem.setup_vector_store (rag_system.py lines 78-88): appends the new
entries to the table. -/
def upsert (table newEntries : List IndexEntry) : List IndexEntry :=
  table ++ newEntries

/-! ## Prompt construction and query (rag_system.py lines 93-187) -/

/-- The instruction line opening both prompt templates (rag_system.py
lines 113 and 165). -/
def instruction : String :=
  "Answer the following question based only on the provided context:"

/-- The prompt template created inside get_rag_chain (rag_system.py
lines 113-120). -/
def get_rag_chain_template : String :=
  "Answer the following question based only on the provided context:\n\n<context>\n{context}\n</context>\n\nQuestion: {input}\n"

/-- The prompt template created inside query (rag_system.py lines
165-172). -/
def query_template : String :=
  "Answer the following question based only on the provided context:\n\n<context>\n{context}\n</context>\n\nQuestion: {input}\n"

/-- The retrieval k configured on the retriever inside get_rag_chain
(rag_system.py line 110). -/
def get_rag_chain_search_k : Nat := Config.SEARCH_K

/-- The retrieval k used inside query (rag_system.py line 154). -/
def query_search_k : Nat := Config.SEARCH_K

/-- Joining of the retrieved page contents into the prompt's context
slot.  Modelled from the spec (section 4.6: concatenates context chunks
in retrieval order): the joining itself is performed by the library
function create_stuff_documents_chain, which separates documents by a
blank line. -/
def joinContext : List String → String
  | [] => ""
  | [d] => d
  | d :: ds => d ++ "\n\n" ++ joinContext ds

/-- The single prompt sent to the LLM by query (rag_system.py lines
165-179): the template with the joined retrieved contents in the
context slot and the question in the input slot. -/
def buildPrompt (question : String) (docs : List Document) : String :=
  instruction ++ "\n\n<context>\n" ++ joinContext (docs.map Document.page_content)
    ++ "\n</context>\n\nQuestion: " ++ question ++ "\n"

/-- Error raised by query when no vector store is available
(rag_system.py line 150 raises ValueError, named NotReadyError by the
spec's error taxonomy in section 7). -/
inductive RagError where
  | notReady
deriving DecidableEq

/-- The dictionary returned by RAGSystem.query (rag_system.py lines
182-187). -/
structure QueryResponse where
  answer : String
  context : List Document
  scores : List ℚ
  top_k : Nat
deriving DecidableEq

/-- The retrieval-plus-generation body of query once a vector store is
present (rag_system.py lines 152-187): search with k = Config.SEARCH_K,
unpack docs and scores, build the prompt, invoke the LLM, return the
enriched response. -/
def runSearch (vs : Handle) (question : String)
    (search : Handle → String → Nat → List (Document × ℚ))
    (llmInvoke : String → String) : QueryResponse :=
  let k_value := Config.SEARCH_K
  let docs_and_scores := search vs question k_value
  let docs := docs_and_scores.map Prod.fst
  let scores := docs_and_scores.map Prod.snd
  { answer := llmInvoke (buildPrompt question docs)
  , context := docs
  , scores := scores
  , top_k := k_value }

/-- RAGSystem.query (rag_system.py lines 129-187).  The external
collaborators are explicit parameters: `reopens` is the stream of
outcomes of the LanceDB constructor at lines 141-145 (an exception or a
handle; query consumes one outcome per reopen attempt), `search` is
similarity_search_with_score, `llmInvoke` is document_chain.invoke.
Returns the result (response or error), the post-call state, and the
unconsumed reopen outcomes. -/
def RAGSystem.query (s : RAGSystem) (question : String)
    (reopens : List (Except String Handle))
    (search : Handle → String → Nat → List (Document × ℚ))
    (llmInvoke : String → String) :
    Except RagError QueryResponse × RAGSystem × List (Except String Handle) :=
  match s.vector_store with
  | some vs =>
      (Except.ok (runSearch vs question search llmInvoke), s, reopens)
  | none =>
      match reopens with
      | [] => (Except.error RagError.notReady, s, [])
      | Except.ok h :: rest =>
          let s' := { s with vector_store := some h }
          (Except.ok (runSearch h question search llmInvoke), s', rest)
      | Except.error _ :: rest =>
          (Except.error RagError.notReady, s, rest)

/-! ## UI similarity display (src/app.py line 161) -/

/-- The similarity displayed by the UI for a retrieved document's
distance score (app.py line 161). -/
def sim_score (score : ℚ) : ℚ :=
  max 0 (1 - score ^ 2 / 2)

/-! ## Occurrence-in-order predicate, used to state the prompt-shape
claim -/

/-- The character lists `ps` occur, in order and without overlap, inside
`s`. -/
def chainedIn : List Char → List (List Char) → Prop
  | _, [] => True
  | s, p :: ps => ∃ pre suf, s = pre ++ p ++ suf ∧ chainedIn suf ps

/-! ## Concrete fixtures used by witness theorems -/

/-- A concrete vector-store handle. -/
def sampleHandle : Handle := { table_name := Config.TABLE_NAME }

/-- A concrete retrieved document. -/
def sampleDoc : Document := { page_content := "The sky is blue.", source := "doc.md" }

/-- A concrete search collaborator returning one scored document. -/
def sampleSearch : Handle → String → Nat → List (Document × ℚ) :=
  fun _ _ _ => [(sampleDoc, 1/2)]

/-- A concrete LLM collaborator. -/
def sampleLLM : String → String := fun _ => "The sky is blue."

/-- A session state that already holds an index handle. -/
def sampleIndexed : RAGSystem :=
  { RAGSystem.init with vector_store := some sampleHandle }

/-! ## Helper lemmas -/

/-- Pieces produced by `splitRec` never exceed the chunk size (assuming a
positive chunk size). -/
theorem splitRec_length_le (cs : Nat) (hcs : 1 ≤ cs) :
    ∀ seps text, ∀ p ∈ splitRec cs seps text, p.length ≤ cs := by
  intro seps
  induction seps with
  | nil =>
      intro text p hp
      simp only [splitRec, charPieces, List.mem_map] at hp
      obtain ⟨c, _, rfl⟩ := hp
      simpa using hcs
  | cons sep rest ih =>
      intro text p hp
      simp only [splitRec, List.mem_flatMap] at hp
      obtain ⟨q, _, hpq⟩ := hp
      by_cases h : q.length ≤ cs
      · simp only [if_pos h, List.mem_singleton] at hpq
        exact hpq ▸ h
      · simp only [if_neg h] at hpq
        exact ih q p hpq

/-- Chunks produced by `mergeLoop` never exceed the chunk size, provided
every input segment fits and the running chunk fits. -/
theorem mergeLoop_length_le (cs co : Nat) :
    ∀ segs cur, (∀ s ∈ segs, s.length ≤ cs) → cur.length ≤ cs →
      ∀ c ∈ mergeLoop cs co segs cur, c.length ≤ cs := by
  intro segs
  induction segs with
  | nil =>
      intro cur _ hcur c hc
      unfold mergeLoop at hc
      split at hc
      · simp at hc
      · simp only [List.mem_singleton] at hc
        exact hc ▸ hcur
  | cons seg segs ih =>
      intro cur hsegs hcur c hc
      have hseg : seg.length ≤ cs := hsegs seg (by simp)
      have hsegs' : ∀ s ∈ segs, s.length ≤ cs := fun s hs => hsegs s (by simp [hs])
      unfold mergeLoop at hc
      split at hc
      next h =>
        exact ih (cur ++ seg) hsegs' (by simpa using h) c hc
      next h =>
        rcases List.mem_cons.mp hc with rfl | hc'
        · exact hcur
        · refine ih _ hsegs' ?_ c hc'
          have h1 : (takeRightChars cur (min co (cs - seg.length))).length
              ≤ cs - seg.length := by
            simp only [takeRightChars, List.length_drop]
            omega
          simp only [List.length_append]
          omega

/-- Zipping the projections of a list of pairs recovers the list. -/
theorem zip_fst_snd_eq (l : List (Document × ℚ)) :
    (l.map Prod.fst).zip (l.map Prod.snd) = l := by
  induction l with
  | nil => rfl
  | cons x xs ih => simp [ih]

/-- An in-order occurrence survives prepending characters. -/
theorem chainedIn_append_left (t : List Char) :
    ∀ ps s, chainedIn s ps → chainedIn (t ++ s) ps := by
  intro ps
  cases ps with
  | nil => intro s _; trivial
  | cons p ps =>
      intro s h
      obtain ⟨pre, suf, rfl, htail⟩ := h
      exact ⟨t ++ pre, suf, by simp, htail⟩

/-- An in-order occurrence survives appending characters. -/
theorem chainedIn_append_right (t : List Char) :
    ∀ ps s, chainedIn s ps → chainedIn (s ++ t) ps := by
  intro ps
  induction ps with
  | nil => intro s _; trivial
  | cons p ps ih =>
      intro s h
      obtain ⟨pre, suf, rfl, htail⟩ := h
      exact ⟨pre, suf ++ t, by simp, ih suf htail⟩

/-- The joined context contains all the joined parts in order. -/
theorem chainedIn_join : ∀ parts : List String,
    chainedIn (joinContext parts).data (parts.map String.data) := by
  intro parts
  induction parts with
  | nil => trivial
  | cons d ds ih =>
      cases ds with
      | nil => exact ⟨[], [], by simp [joinContext], trivial⟩
      | cons e es =>
          refine ⟨[], "\n\n".data ++ (joinContext (e :: es)).data, ?_, ?_⟩
          · simp [joinContext, String.data_append]
          · exact chainedIn_append_left _ _ _ ih

/-! ## Claim theorems -/

/-- C2: for every input document and every valid parameter pair with
chunk_overlap < chunk_size, every chunk produced by the chunker (the
split step of load_documents) has content length at most chunk_size. -/
theorem chunk_length_le (cs co : Nat) (text : String) (chunks : List String)
    (h : co < cs) (hok : split_text cs co text = Except.ok chunks) :
    ∀ c ∈ chunks, c.length ≤ cs := by
  intro c hc
  unfold split_text at hok
  rw [if_pos h] at hok
  injection hok with hok
  subst hok
  simp only [List.mem_map] at hc
  obtain ⟨l, hl, rfl⟩ := hc
  have hcs : 1 ≤ cs := by omega
  have hall := splitRec_length_le cs hcs separators text.data
  have hb := mergeLoop_length_le cs co (splitRec cs separators text.data) []
    hall (by simp) l hl
  simpa [String.length_mk] using hb

/-- Witness for C2 at a concrete input. -/
theorem chunk_length_le_witness : ("hello".length ≤ 5) :=
  chunk_length_le 5 2 "hello world" ["hello", "world"] (by decide) rfl
    "hello" (by simp)

/-- C4: the chunker validates its parameters, failing fast with
ConfigError exactly when chunk_overlap >= chunk_size, before producing
any chunks; with chunk_overlap < chunk_size it never raises
ConfigError. -/
theorem chunker_validates (cs co : Nat) (text : String) :
    (cs ≤ co → split_text cs co text = Except.error ChunkError.configError) ∧
    (co < cs → ∃ chunks, split_text cs co text = Except.ok chunks) := by
  constructor
  · intro h
    unfold split_text
    rw [if_neg (by omega)]
  · intro h
    exact ⟨_, by unfold split_text; rw [if_pos h]⟩

/-- Witness for C4 at a concrete input. -/
theorem chunker_validates_witness :
    split_text 3 5 "ab" = Except.error ChunkError.configError :=
  (chunker_validates 3 5 "ab").1 (by decide)

/-- C3: each ingestion against the same table only appends entries:
every index entry present before the call is still present, unmodified
and in place, after the call (the old table is a prefix of the new one),
even when the same source is re-ingested. -/
theorem upsert_append_only (table newEntries : List IndexEntry) :
    (upsert table newEntries).take table.length = table ∧
    (upsert table newEntries).length = table.length + newEntries.length := by
  constructor
  · exact List.take_left table newEntries
  · simp [upsert]

/-- C6: for every distance d, the similarity displayed by the UI equals
max(0, 1 - d^2/2), and this value always lies in [0, 1]. -/
theorem sim_score_range (d : ℚ) :
    sim_score d = max 0 (1 - d ^ 2 / 2) ∧ 0 ≤ sim_score d ∧ sim_score d ≤ 1 := by
  refine ⟨rfl, le_max_left _ _, ?_⟩
  have h : (0 : ℚ) ≤ d ^ 2 / 2 := by positivity
  exact max_le (by norm_num) (by linarith)

/-- C10: the retrieval-chain path built by get_rag_chain and the manual
path inside query use the same prompt template text and the same
retrieval k, so on the same question and index state they issue the same
retrieval request and the same prompt shape. -/
theorem chain_query_paths_agree :
    get_rag_chain_template = query_template ∧
    get_rag_chain_search_k = query_search_k ∧
    (fun question : String => (question, get_rag_chain_search_k))
      = (fun question : String => (question, query_search_k)) :=
  ⟨rfl, rfl, rfl⟩

/-- C1: for every question, query with no index handle in the session
attempts exactly one reopen (it consumes exactly the first reopen
outcome); when that reopen fails, its exception is absorbed and query
fails with NotReadyError, regardless of the reopen failure's detail,
returning no answer. -/
theorem query_reopen_failure (s : RAGSystem) (question errMsg : String)
    (rest : List (Except String Handle))
    (search : Handle → String → Nat → List (Document × ℚ))
    (llmInvoke : String → String)
    (h : s.vector_store = none) :
    RAGSystem.query s question (Except.error errMsg :: rest) search llmInvoke
      = (Except.error RagError.notReady, s, rest) := by
  simp [RAGSystem.query, h]

/-- Witness for C1 at a concrete input. -/
theorem query_reopen_failure_witness :
    RAGSystem.query RAGSystem.init "What color is the sky?"
        [Except.error "table does not exist"] sampleSearch sampleLLM
      = (Except.error RagError.notReady, RAGSystem.init, []) :=
  query_reopen_failure RAGSystem.init "What color is the sky?"
    "table does not exist" [] sampleSearch sampleLLM rfl

/-- C9: the only session-state field query may change is vector_store,
and only from absent to a handle delivered by the reopen attempt; the
embeddings provider, the LLM handle and the database connection are
unchanged, and a present vector_store is never replaced or reset. -/
theorem query_frame (s : RAGSystem) (question : String)
    (reopens : List (Except String Handle))
    (search : Handle → String → Nat → List (Document × ℚ))
    (llmInvoke : String → String) :
    (RAGSystem.query s question reopens search llmInvoke).2.1.embeddings
        = s.embeddings ∧
    (RAGSystem.query s question reopens search llmInvoke).2.1.llm = s.llm ∧
    (RAGSystem.query s question reopens search llmInvoke).2.1._db = s._db ∧
    (∀ v, s.vector_store = some v →
      (RAGSystem.query s question reopens search llmInvoke).2.1.vector_store
        = some v) ∧
    (∀ h, s.vector_store = none →
      (RAGSystem.query s question reopens search llmInvoke).2.1.vector_store
          = some h →
      reopens.head? = some (Except.ok h)) := by
  rcases hvs : s.vector_store with _ | v
  · rcases reopens with _ | ⟨r, rest⟩
    · simp [RAGSystem.query, hvs]
    · rcases r with e | hdl
      · simp [RAGSystem.query, hvs]
      · simp [RAGSystem.query, hvs]
  · simp [RAGSystem.query, hvs]

/-- Witness for C9 at a concrete input: the untouched embeddings field,
and the reopen provenance of the new handle. -/
theorem query_frame_witness :
    (RAGSystem.query RAGSystem.init "q" [Except.ok sampleHandle]
        sampleSearch sampleLLM).2.1.embeddings = "text-embedding-3-small" ∧
    ([Except.ok sampleHandle] : List (Except String Handle)).head?
      = some (Except.ok sampleHandle) := by
  constructor
  · exact ((query_frame RAGSystem.init "q" [Except.ok sampleHandle]
      sampleSearch sampleLLM).1).trans rfl
  · exact (query_frame RAGSystem.init "q" [Except.ok sampleHandle]
      sampleSearch sampleLLM).2.2.2.2 sampleHandle rfl rfl

/-- C5: every successful query call returns the generated answer, the
retrieved chunks in search order together with their distance scores,
and a top_k field equal to the configured SEARCH_K, which is 4,
regardless of the question. -/
theorem query_success_shape (s : RAGSystem) (question : String)
    (reopens : List (Except String Handle))
    (search : Handle → String → Nat → List (Document × ℚ))
    (llmInvoke : String → String)
    (resp : QueryResponse) (s' : RAGSystem) (rem : List (Except String Handle))
    (h : RAGSystem.query s question reopens search llmInvoke
      = (Except.ok resp, s', rem)) :
    ∃ vs, s'.vector_store = some vs ∧
      resp.context = (search vs question Config.SEARCH_K).map Prod.fst ∧
      resp.scores = (search vs question Config.SEARCH_K).map Prod.snd ∧
      resp.answer = llmInvoke (buildPrompt question resp.context) ∧
      resp.top_k = Config.SEARCH_K ∧
      Config.SEARCH_K = 4 := by
  rcases hvs : s.vector_store with _ | v
  · rcases reopens with _ | ⟨r, rest⟩
    · simp [RAGSystem.query, hvs] at h
    · rcases r with e | hdl
      · simp [RAGSystem.query, hvs] at h
      · simp only [RAGSystem.query, hvs, Prod.mk.injEq, Except.ok.injEq] at h
        obtain ⟨h1, h2, h3⟩ := h
        subst h1
        subst h2
        exact ⟨hdl, rfl, rfl, rfl, rfl, rfl, rfl⟩
  · simp only [RAGSystem.query, hvs, Prod.mk.injEq, Except.ok.injEq] at h
    obtain ⟨h1, h2, h3⟩ := h
    subst h1
    subst h2
    exact ⟨v, hvs, rfl, rfl, rfl, rfl, rfl⟩

/-- Witness for C5 at a concrete input. -/
theorem query_success_shape_witness :
    (runSearch sampleHandle "q" sampleSearch sampleLLM).top_k = 4 := by
  obtain ⟨vs, _, _, _, _, h5, h6⟩ :=
    query_success_shape sampleIndexed "q" [] sampleSearch sampleLLM
      (runSearch sampleHandle "q" sampleSearch sampleLLM) sampleIndexed [] rfl
  exact h5.trans h6

/-- C8: for every successful query call, the context and scores lists of
the response have equal length and are index-aligned: zipping them
recovers exactly the scored pairs the search returned. -/
theorem query_context_scores_aligned (s : RAGSystem) (question : String)
    (reopens : List (Except String Handle))
    (search : Handle → String → Nat → List (Document × ℚ))
    (llmInvoke : String → String)
    (resp : QueryResponse) (s' : RAGSystem) (rem : List (Except String Handle))
    (h : RAGSystem.query s question reopens search llmInvoke
      = (Except.ok resp, s', rem)) :
    resp.context.length = resp.scores.length ∧
    ∃ vs, s'.vector_store = some vs ∧
      resp.context.zip resp.scores = search vs question Config.SEARCH_K := by
  rcases hvs : s.vector_store with _ | v
  · rcases reopens with _ | ⟨r, rest⟩
    · simp [RAGSystem.query, hvs] at h
    · rcases r with e | hdl
      · simp [RAGSystem.query, hvs] at h
      · simp only [RAGSystem.query, hvs, Prod.mk.injEq, Except.ok.injEq] at h
        obtain ⟨h1, h2, h3⟩ := h
        subst h1
        subst h2
        exact ⟨by simp [runSearch], hdl, rfl,
          zip_fst_snd_eq (search hdl question Config.SEARCH_K)⟩
  · simp only [RAGSystem.query, hvs, Prod.mk.injEq, Except.ok.injEq] at h
    obtain ⟨h1, h2, h3⟩ := h
    subst h1
    subst h2
    exact ⟨by simp [runSearch], v, hvs,
      zip_fst_snd_eq (search v question Config.SEARCH_K)⟩

/-- Witness for C8 at a concrete input. -/
theorem query_context_scores_aligned_witness :
    (runSearch sampleHandle "q" sampleSearch sampleLLM).context.length
      = (runSearch sampleHandle "q" sampleSearch sampleLLM).scores.length :=
  (query_context_scores_aligned sampleIndexed "q" [] sampleSearch sampleLLM
    (runSearch sampleHandle "q" sampleSearch sampleLLM) sampleIndexed [] rfl).1

/-- C7: for every question and every sequence of retrieved chunks, the
single prompt built for the LLM starts with the instruction to answer
only from the supplied context, contains the retrieved chunks' contents
in retrieval order, and contains the question verbatim. -/
theorem prompt_shape (question : String) (docs : List Document) :
    (∃ rest, (buildPrompt question docs).data = instruction.data ++ rest) ∧
    chainedIn (buildPrompt question docs).data
      (docs.map (fun d => d.page_content.data)) ∧
    (∃ pre suf, (buildPrompt question docs).data = pre ++ question.data ++ suf) := by
  refine ⟨?_, ?_, ?_⟩
  · refine ⟨"\n\n<context>\n".data
      ++ ((joinContext (docs.map Document.page_content)).data
      ++ ("\n</context>\n\nQuestion: ".data ++ (question.data ++ "\n".data))), ?_⟩
    simp [buildPrompt, String.data_append]
  · have hj := chainedIn_join (docs.map Document.page_content)
    have hmap : (docs.map Document.page_content).map String.data
        = docs.map (fun d => d.page_content.data) := by
      simp [List.map_map]
    rw [hmap] at hj
    have h2 := chainedIn_append_right
      ("\n</context>\n\nQuestion: ".data ++ (question.data ++ "\n".data)) _ _ hj
    have h3 := chainedIn_append_left "\n\n<context>\n".data _ _ h2
    have h4 := chainedIn_append_left instruction.data _ _ h3
    have heq : (buildPrompt question docs).data
        = instruction.data ++ ("\n\n<context>\n".data
          ++ ((joinContext (docs.map Document.page_content)).data
          ++ ("\n</context>\n\nQuestion: ".data ++ (question.data ++ "\n".data)))) := by
      simp [buildPrompt, String.data_append]
    rw [heq]
    exact h4
  · refine ⟨instruction.data ++ ("\n\n<context>\n".data
      ++ ((joinContext (docs.map Document.page_content)).data
      ++ "\n</context>\n\nQuestion: ".data)), "\n".data, ?_⟩
    simp [buildPrompt, String.data_append]

end Tellow
